import Mathlib

/-!
Verification of the label algebra of the multi-criteria transit routing
engine (`app/algorithms/label.py` and the legacy `label.py`).

Python floats are modelled as rationals (`ℚ`), Python ints as `ℤ`,
station/line codes as `String`.  Python dicts are modelled as association
lists (iteration order = insertion order, as in CPython) or, for the
weight dictionaries that are only read through `.get`, as total functions
into `Option ℚ`.
-/

set_option maxHeartbeats 1000000

namespace Transit

/-- The per-label scalar fields of the current `Label` dataclass
(`app/algorithms/label.py`), minus the parent pointer. -/
structure LabelFields where
  arrival_time : ℚ
  transfers : ℤ
  convenience_sum : ℚ
  congestion_sum : ℚ
  max_transfer_difficulty : ℚ
  current_station_cd : String
  current_line : String
  current_direction : String
  visited_stations : List String
  depth : ℤ
  transfer_info : Option (String × String × String)
  is_first_move : Bool
  created_round : ℤ
deriving DecidableEq, Repr

/-- The current `Label` dataclass: its scalar fields together with the
optional `parent_label` back-pointer. -/
inductive Label : Type where
  | mk (fields : LabelFields) (parent_label : Option Label)

namespace Label

def fields : Label → LabelFields
  | .mk f _ => f

def parent_label : Label → Option Label
  | .mk _ p => p

def arrival_time (l : Label) : ℚ := l.fields.arrival_time
def transfers (l : Label) : ℤ := l.fields.transfers
def convenience_sum (l : Label) : ℚ := l.fields.convenience_sum
def congestion_sum (l : Label) : ℚ := l.fields.congestion_sum
def max_transfer_difficulty (l : Label) : ℚ := l.fields.max_transfer_difficulty
def current_station_cd (l : Label) : String := l.fields.current_station_cd
def current_line (l : Label) : String := l.fields.current_line
def current_direction (l : Label) : String := l.fields.current_direction
def depth (l : Label) : ℤ := l.fields.depth

/-- `Label.route_length` property. -/
def route_length (l : Label) : ℤ := l.depth

/-- `Label.avg_convenience`: `convenience_sum / depth`. -/
def avg_convenience (l : Label) : ℚ := l.convenience_sum / (l.depth : ℚ)

/-- `Label.avg_congestion`: `congestion_sum / depth`. -/
def avg_congestion (l : Label) : ℚ := l.congestion_sum / (l.depth : ℚ)

end Label

/-- One minimization criterion step of `Label.dominates`, in continuation
style: `if s < o: flag := true; elif s > o: return False`, then continue
with the updated flag. -/
def critMin (s o : ℚ) (flag : Bool) (k : Bool → Bool) : Bool :=
  if s < o then k true
  else if s > o then false
  else k flag

/-- Integer variant of `critMin` (for the `transfers` criterion). -/
def critMinInt (s o : ℤ) (flag : Bool) (k : Bool → Bool) : Bool :=
  if s < o then k true
  else if s > o then false
  else k flag

/-- One maximization criterion step of `Label.dominates`:
`if s > o: flag := true; elif s < o: return False`, then continue. -/
def critMax (s o : ℚ) (flag : Bool) (k : Bool → Bool) : Bool :=
  if s > o then k true
  else if s < o then false
  else k flag

namespace Label

/-- `Label.dominates` of the current `Label` class: bucket guards on
station / line / transfer count, then the sequential five-criterion
comparison accumulating `better_in_any` with early `return False`. -/
def dominates (self other : Label) : Bool :=
  if self.current_station_cd ≠ other.current_station_cd then false
  else if self.current_line ≠ other.current_line then false
  else if self.transfers ≠ other.transfers then false
  else
    critMinInt self.transfers other.transfers false (fun b1 =>
      critMin self.max_transfer_difficulty other.max_transfer_difficulty b1 (fun b2 =>
        critMin self.arrival_time other.arrival_time b2 (fun b3 =>
          critMin self.avg_congestion other.avg_congestion b3 (fun b4 =>
            critMax self.avg_convenience other.avg_convenience b4 (fun b5 => b5)))))

end Label

/-- Abbreviation for a root label (no parent). -/
def Label.ofFields (f : LabelFields) : Label := .mk f none

/-- A Python weight dictionary, read only through `.get(key, 0.2)`:
a total function from criterion names to an optional weight. -/
def Weights : Type := String → Option ℚ

/-- `dict.get(key, default)`. -/
def wget (w : Weights) (key : String) (default : ℚ) : ℚ := (w key).getD default

namespace Label

/-- `Label.__eq__` of the current class: equality of the bucket key
`(current_station_cd, current_line, transfers)` only. -/
def eqPy (self other : Label) : Bool :=
  self.current_station_cd == other.current_station_cd
    && self.current_line == other.current_line
    && self.transfers == other.transfers

/-- The tuple that `Label.__hash__` hashes:
`(current_station_cd, current_line, transfers)`. -/
def hashKey (l : Label) : String × String × ℤ :=
  (l.current_station_cd, l.current_line, l.transfers)

/-- `Label.__hash__`, parametric in CPython's opaque tuple hash `h`. -/
def hashPy (h : String × String × ℤ → ℤ) (l : Label) : ℤ := h l.hashKey

/-- `Label.calculate_weighted_score`: the Ranker's weighted penalty. -/
def calculate_weighted_score (l : Label) (weights : Weights) : ℚ :=
  let norm_time := min (l.arrival_time / 120) 1
  let norm_transfers := min ((l.transfers : ℚ) / 4) 1
  let norm_difficulty := l.max_transfer_difficulty
  let norm_convenience := 1 - l.avg_convenience / 5
  let norm_congestion := min l.avg_congestion 1
  wget weights "travel_time" (2/10) * norm_time
    + wget weights "transfers" (2/10) * norm_transfers
    + wget weights "transfer_difficulty" (2/10) * norm_difficulty
    + wget weights "convenience" (2/10) * norm_convenience
    + wget weights "congestion" (2/10) * norm_congestion

/-- `Label.get_normalized_vector`: the five-component normalized cost
vector used by ε-pruning. -/
def get_normalized_vector (l : Label) : List ℚ :=
  [l.arrival_time / 90,
   (l.transfers : ℚ) / 3,
   l.max_transfer_difficulty,
   l.avg_convenience / 5,
   l.avg_congestion / (13/10)]

end Label

/-- The criteria name list iterated by `Label.weighted_distance`. -/
def criteriaList : List String :=
  ["travel_time", "transfers", "transfer_difficulty", "convenience", "congestion"]

namespace Label

/-- The loop body of `Label.weighted_distance`: the accumulated
`diff_sq` after folding over `enumerate(criteria)`. -/
def weighted_diff_sq (self other : Label) (anp_weights : Weights) : ℚ :=
  let v1 := self.get_normalized_vector
  let v2 := other.get_normalized_vector
  criteriaList.enum.foldl
    (fun diff_sq p =>
      let weight := wget anp_weights p.2 (2/10)
      let diff := v1.getD p.1 0 - v2.getD p.1 0
      diff_sq + weight * diff * diff)
    0

/-- `Label.weighted_distance`: `math.sqrt(diff_sq)`. -/
noncomputable def weighted_distance (self other : Label) (anp_weights : Weights) : ℝ :=
  Real.sqrt ((self.weighted_diff_sq other anp_weights : ℚ) : ℝ)

/-- `Label.epsilon_similar`: `weighted_distance(other, w) <= epsilon`. -/
def epsilon_similar (self other : Label) (epsilon : ℚ) (anp_weights : Weights) : Prop :=
  self.weighted_distance other anp_weights ≤ (epsilon : ℝ)

end Label

/-- `McRaptor`'s `station_order_map`: `{(station_cd, line): order}`,
modelled as an association list in insertion order. -/
abbrev StationOrderMap := List ((String × String) × ℤ)

/-- `McRaptor`'s `line_stations` map
`{(station_cd, line): {"up": [...], "down": [...]}}` (passed through but
never read by `_get_intermediate_stations`). -/
abbrev LineStationsMap := List ((String × String) × (List String × List String))

/-- `dict.get` on `station_order_map`. -/
def orderGet (m : StationOrderMap) (k : String × String) : Option ℤ :=
  (m.find? (fun p => p.1 == k)).map (·.2)

/-- One insertion step of a stable sort on the order component;
`asc` selects ascending versus `reverse=True` descending. -/
def insertByOrder (asc : Bool) (x : ℤ × String) : List (ℤ × String) → List (ℤ × String)
  | [] => [x]
  | y :: ys =>
    if (if asc then x.1 < y.1 else y.1 < x.1) then x :: y :: ys
    else y :: insertByOrder asc x ys

/-- `list.sort(key=lambda x: x[0], reverse=not is_ascending)`: a stable
sort by the order component. -/
def sortByOrder (asc : Bool) (l : List (ℤ × String)) : List (ℤ × String) :=
  l.foldl (fun acc x => insertByOrder asc x acc) []

/-- `_get_intermediate_stations` from `app/algorithms/label.py`: look up
the two endpoint orders, collect every map entry of the same line with
order in `(min, max]`, sort by order in the direction of travel, and fall
back to `[to_station_cd]` when an order is missing or the range is empty. -/
def _get_intermediate_stations (from_station_cd to_station_cd line direction : String)
    (line_stations : LineStationsMap) (station_order_map : StationOrderMap) :
    List String :=
  match orderGet station_order_map (from_station_cd, line),
        orderGet station_order_map (to_station_cd, line) with
  | some from_order, some to_order =>
    let start_idx := min from_order to_order
    let end_idx := max from_order to_order
    let intermediate_candidates := station_order_map.filterMap (fun p =>
      if p.1.2 = line ∧ start_idx < p.2 ∧ p.2 ≤ end_idx then some (p.2, p.1.1) else none)
    let is_ascending : Bool := decide (from_order < to_order)
    let result_stations := (sortByOrder is_ascending intermediate_candidates).map (·.2)
    if result_stations.isEmpty then [to_station_cd] else result_stations
  | _, _ => [to_station_cd]

namespace Label

/-- The leaf-to-root label chain collected by the `while cur is not None`
loops of the reconstruction methods. -/
def ancestors : Label → List Label
  | .mk f none => [.mk f none]
  | .mk f (some p) => .mk f (some p) :: p.ancestors

/-- `labels_path` after the `[::-1]` reversal: root to leaf. -/
def pathFromRoot (l : Label) : List Label := l.ancestors.reverse

end Label

/-- Phase 2 of `Label.reconstruct_route`: the stations emitted for the
consecutive pairs `(prev, curr)` along the root-to-leaf path. -/
def routeSteps (ls : LineStationsMap) (som : StationOrderMap) :
    Label → List Label → List String
  | _, [] => []
  | prev, curr :: rest =>
    (if prev.current_line ≠ curr.current_line then
      if curr.current_station_cd ≠ prev.current_station_cd then
        [curr.current_station_cd]
      else []
    else
      _get_intermediate_stations prev.current_station_cd curr.current_station_cd
        curr.current_line curr.current_direction ls som)
      ++ routeSteps ls som curr rest

/-- The matching loop of `Label.reconstruct_lines`: one copy of the line
label per station that `routeSteps` emits for the same pair. -/
def linesSteps (ls : LineStationsMap) (som : StationOrderMap) :
    Label → List Label → List String
  | _, [] => []
  | prev, curr :: rest =>
    (if prev.current_line ≠ curr.current_line then
      if curr.current_station_cd ≠ prev.current_station_cd then
        [curr.current_line]
      else []
    else
      List.replicate
        (_get_intermediate_stations prev.current_station_cd curr.current_station_cd
          curr.current_line curr.current_direction ls som).length
        curr.current_line)
      ++ linesSteps ls som curr rest

namespace Label

/-- `Label.reconstruct_route`: full route with intermediate stations when
both helper maps are provided, plain label-station listing otherwise. -/
def reconstruct_route (l : Label) (line_stations : Option LineStationsMap)
    (station_order_map : Option StationOrderMap) : List String :=
  match line_stations, station_order_map with
  | some ls, some som =>
    match l.pathFromRoot with
    | [] => []
    | first :: rest => first.current_station_cd :: routeSteps ls som first rest
  | _, _ => l.pathFromRoot.map current_station_cd

/-- `Label.reconstruct_lines`: the per-station line track, same shape as
`reconstruct_route`. -/
def reconstruct_lines (l : Label) (line_stations : Option LineStationsMap)
    (station_order_map : Option StationOrderMap) : List String :=
  match line_stations, station_order_map with
  | some ls, some som =>
    match l.pathFromRoot with
    | [] => []
    | first :: rest => first.current_line :: linesSteps ls som first rest
  | _, _ => (l.ancestors.map current_line).reverse

end Label

/-! ## The legacy `Label` class of `label.py` (repository root) -/

/-- A Python attribute value of the legacy `Label` dataclass. -/
inductive PyVal where
  | num (q : ℚ)
  | int (n : ℤ)
  | numList (l : List ℚ)
  | strList (l : List String)
  | tripleList (l : List (String × String × String))
deriving DecidableEq

/-- The legacy `Label` dataclass of `label.py`: exactly its declared
fields. -/
structure LegacyLabel where
  arrival_time : ℚ
  transfers : ℤ
  transfer_difficulty_list : List ℚ
  convenience_sum : ℚ
  congestion_sum : ℚ
  route : List String
  lines : List String
  transfer_context : List (String × String × String)
  created_round : ℤ
deriving DecidableEq

namespace LegacyLabel

/-- Python attribute lookup on a legacy `Label` instance: the instance
holds exactly the dataclass's declared fields, any other name raises
`AttributeError` (modelled as `none`). -/
def getattr (l : LegacyLabel) (name : String) : Option PyVal :=
  if name = "arrival_time" then some (.num l.arrival_time)
  else if name = "transfers" then some (.int l.transfers)
  else if name = "transfer_difficulty_list" then some (.numList l.transfer_difficulty_list)
  else if name = "convenience_sum" then some (.num l.convenience_sum)
  else if name = "congestion_sum" then some (.num l.congestion_sum)
  else if name = "route" then some (.strList l.route)
  else if name = "lines" then some (.strList l.lines)
  else if name = "transfer_context" then some (.tripleList l.transfer_context)
  else if name = "created_round" then some (.int l.created_round)
  else none

/-- Using an attribute value in float arithmetic: numbers pass through,
anything else is a `TypeError` (modelled as `none`). -/
def asNum : PyVal → Option ℚ
  | .num q => some q
  | .int n => some (n : ℚ)
  | _ => none

/-- Legacy `Label.max_transfer_difficulty`:
`max(self.transfer_difficulty_list, default=0.0)`. -/
def max_transfer_difficulty (l : LegacyLabel) : ℚ :=
  match l.transfer_difficulty_list with
  | [] => 0
  | x :: xs => xs.foldl max x

/-- Legacy `Label.calculate_weighted_score`, with fallible attribute
access made explicit: the reads of `self.convenience_score` and
`self.congestion_score` go through `getattr`. -/
def calculate_weighted_score (l : LegacyLabel) (anp_weights : Weights) : Option ℚ := do
  let norm_time := min (l.arrival_time / 120) 1
  let norm_transfers := min ((l.transfers : ℚ) / 4) 1
  let norm_difficulty := l.max_transfer_difficulty
  let conv ← l.getattr "convenience_score"
  let convq ← asNum conv
  let norm_convenience := 1 - convq / 5
  let cong ← l.getattr "congestion_score"
  let congq ← asNum cong
  let norm_congestion := min congq 1
  some (wget anp_weights "travel_time" (2/10) * norm_time
    + wget anp_weights "transfers" (2/10) * norm_transfers
    + wget anp_weights "transfer_difficulty" (2/10) * norm_difficulty
    + wget anp_weights "convenience" (2/10) * norm_convenience
    + wget anp_weights "congestion" (2/10) * norm_congestion)

end LegacyLabel

/-! ## Concrete sample data for witnesses -/

/-- A sample tuple hash (stands in for CPython's opaque tuple hash). -/
def tupleHashSample : String × String × ℤ → ℤ := fun t => t.2.2

/-- A sample label: depth-2 journey on line `L1` at station `S1`. -/
def labelW1 : Label := Label.ofFields
  { arrival_time := 10, transfers := 1, convenience_sum := 3, congestion_sum := 2,
    max_transfer_difficulty := 1/2, current_station_cd := "S1", current_line := "L1",
    current_direction := "up", visited_stations := ["S0", "S1"], depth := 2,
    transfer_info := none, is_first_move := false, created_round := 1 }

/-- A second sample label in the same bucket as `labelW1` but differing
in every other attribute. -/
def labelW2 : Label := Label.ofFields
  { arrival_time := 12, transfers := 1, convenience_sum := 4, congestion_sum := 1,
    max_transfer_difficulty := 1/4, current_station_cd := "S1", current_line := "L1",
    current_direction := "down", visited_stations := ["S2", "S1"], depth := 2,
    transfer_info := some ("S1", "L0", "L1"), is_first_move := true, created_round := 2 }

/-- A two-station order map for line `L`: station `A` at order 0 and
station `B` at order 1. -/
def somW : StationOrderMap := [(("A", "L"), 0), (("B", "L"), 1)]

/-! ## Helper lemmas -/

theorem critMin_eq (s o : ℚ) (flag : Bool) (k : Bool → Bool) :
    critMin s o flag k = if o < s then false else k (flag || decide (s < o)) := by
  rcases lt_trichotomy s o with h | h | h
  · simp [critMin, h, asymm h]
  · simp [critMin, h]
  · simp [critMin, h, asymm h]

theorem critMinInt_eq (s o : ℤ) (flag : Bool) (k : Bool → Bool) :
    critMinInt s o flag k = if o < s then false else k (flag || decide (s < o)) := by
  rcases lt_trichotomy s o with h | h | h
  · simp [critMinInt, h, asymm h]
  · simp [critMinInt, h]
  · simp [critMinInt, h, asymm h]

theorem critMax_eq (s o : ℚ) (flag : Bool) (k : Bool → Bool) :
    critMax s o flag k = if s < o then false else k (flag || decide (o < s)) := by
  rcases lt_trichotomy s o with h | h | h
  · simp [critMax, h, asymm h]
  · simp [critMax, h]
  · simp [critMax, h, asymm h]

/-- Closed form of `Label.dominates`: bucket equality, no criterion
strictly worse, and at least one criterion strictly better. -/
theorem Label.dominates_eq_true_iff (a b : Label) :
    a.dominates b = true ↔
      (a.current_station_cd = b.current_station_cd ∧ a.current_line = b.current_line ∧
        a.transfers = b.transfers) ∧
      (a.arrival_time ≤ b.arrival_time ∧
        a.max_transfer_difficulty ≤ b.max_transfer_difficulty ∧
        a.avg_congestion ≤ b.avg_congestion ∧
        b.avg_convenience ≤ a.avg_convenience) ∧
      (a.transfers < b.transfers ∨
        a.arrival_time < b.arrival_time ∨
        a.max_transfer_difficulty < b.max_transfer_difficulty ∨
        a.avg_congestion < b.avg_congestion ∨
        b.avg_convenience < a.avg_convenience) := by
  unfold Label.dominates
  simp only [critMinInt_eq, critMin_eq, critMax_eq]
  split_ifs with h1 h2 h3 h4 h5 h6 h7 h8
  · simp only [Bool.false_eq_true, false_iff]
    rintro ⟨⟨hs, -, -⟩, -, -⟩; exact h1 hs
  · simp only [Bool.false_eq_true, false_iff]
    rintro ⟨⟨-, hl, -⟩, -, -⟩; exact h2 hl
  · simp only [Bool.false_eq_true, false_iff]
    rintro ⟨⟨-, -, ht⟩, -, -⟩; exact h3 ht
  · rw [not_ne_iff] at h3; omega
  · simp only [Bool.false_eq_true, false_iff]
    rintro ⟨-, ⟨-, hd, -, -⟩, -⟩; exact absurd h5 (not_lt.mpr hd)
  · simp only [Bool.false_eq_true, false_iff]
    rintro ⟨-, ⟨ha, -, -, -⟩, -⟩; exact absurd h6 (not_lt.mpr ha)
  · simp only [Bool.false_eq_true, false_iff]
    rintro ⟨-, ⟨-, -, hc, -⟩, -⟩; exact absurd h7 (not_lt.mpr hc)
  · simp only [Bool.false_eq_true, false_iff]
    rintro ⟨-, ⟨-, -, -, hv⟩, -⟩; exact absurd h8 (not_lt.mpr hv)
  · rw [not_ne_iff] at h1 h2 h3
    rw [not_lt] at h4 h5 h6 h7 h8
    simp only [Bool.or_eq_true, decide_eq_true_eq, Bool.false_or]
    tauto

/-- Closed form of the `diff_sq` accumulator of
`Label.weighted_distance`. -/
theorem Label.weighted_diff_sq_eq (a b : Label) (w : Weights) :
    a.weighted_diff_sq b w =
      (w "travel_time").getD (2/10) * (a.arrival_time / 90 - b.arrival_time / 90)^2
      + (w "transfers").getD (2/10) * ((a.transfers : ℚ) / 3 - (b.transfers : ℚ) / 3)^2
      + (w "transfer_difficulty").getD (2/10)
        * (a.max_transfer_difficulty - b.max_transfer_difficulty)^2
      + (w "convenience").getD (2/10) * (a.avg_convenience / 5 - b.avg_convenience / 5)^2
      + (w "congestion").getD (2/10)
        * (a.avg_congestion / (13/10) - b.avg_congestion / (13/10))^2 := by
  simp only [Label.weighted_diff_sq, criteriaList, Label.get_normalized_vector, wget,
    List.enum, List.enumFrom, List.foldl_cons, List.foldl_nil,
    List.getD_cons_zero, List.getD_cons_succ]
  ring

/-- Length-matching of the per-pair emissions of `reconstruct_lines`
and `reconstruct_route`. -/
theorem steps_length_eq (ls : LineStationsMap) (som : StationOrderMap) :
    ∀ (rest : List Label) (prev : Label),
      (linesSteps ls som prev rest).length = (routeSteps ls som prev rest).length := by
  intro rest
  induction rest with
  | nil => intro prev; rfl
  | cons curr rest ih =>
    intro prev
    simp only [linesSteps, routeSteps, List.length_append, ih]
    congr 1
    split_ifs
    · rfl
    · rfl
    · simp

/-! ## Claim theorems -/

/-- C1: `Label.dominates(other)` returns `True` iff the two labels share
`(current_station_cd, current_line, transfers)` and, under that
precondition, `self` is no worse than `other` on every one of the five
criteria (`arrival_time ≤`, `max_transfer_difficulty ≤`,
`avg_congestion ≤`, `avg_convenience ≥`, `transfers` equal) and strictly
better on at least one; comparisons are exact.  In particular labels
differing in station, line, or transfer count are never dominated. -/
theorem dominates_iff_pareto_better (a b : Label) :
    a.dominates b = true ↔
      (a.current_station_cd = b.current_station_cd ∧ a.current_line = b.current_line ∧
        a.transfers = b.transfers) ∧
      (a.arrival_time ≤ b.arrival_time ∧
        a.max_transfer_difficulty ≤ b.max_transfer_difficulty ∧
        a.avg_congestion ≤ b.avg_congestion ∧
        b.avg_convenience ≤ a.avg_convenience ∧
        a.transfers = b.transfers) ∧
      (a.arrival_time < b.arrival_time ∨
        a.max_transfer_difficulty < b.max_transfer_difficulty ∨
        a.avg_congestion < b.avg_congestion ∨
        b.avg_convenience < a.avg_convenience ∨
        a.transfers < b.transfers) := by
  rw [Label.dominates_eq_true_iff]
  constructor
  · rintro ⟨⟨hs, hl, ht⟩, ⟨h1, h2, h3, h4⟩, hstrict⟩
    refine ⟨⟨hs, hl, ht⟩, ⟨h1, h2, h3, h4, ht⟩, ?_⟩
    rcases hstrict with h | h | h | h | h
    · exact absurd h (by omega)
    · exact .inl h
    · exact .inr (.inl h)
    · exact .inr (.inr (.inl h))
    · exact .inr (.inr (.inr (.inl h)))
  · rintro ⟨⟨hs, hl, ht⟩, ⟨h1, h2, h3, h4, -⟩, hstrict⟩
    refine ⟨⟨hs, hl, ht⟩, ⟨h1, h2, h3, h4⟩, ?_⟩
    rcases hstrict with h | h | h | h | h
    · exact .inr (.inl h)
    · exact .inr (.inr (.inl h))
    · exact .inr (.inr (.inr (.inl h)))
    · exact .inr (.inr (.inr (.inr h)))
    · exact .inl h

/-- C3: dominance is asymmetric — `A.dominates(B)` and `B.dominates(A)`
can never both be `True`: their conjunction is always `False`. -/
theorem dominates_asymm (a b : Label) :
    (a.dominates b && b.dominates a) = false := by
  cases hab : a.dominates b with
  | false => simp
  | true =>
    cases hba : b.dominates a with
    | false => simp
    | true =>
      exfalso
      rw [Label.dominates_eq_true_iff] at hab hba
      obtain ⟨⟨-, -, hteq⟩, ⟨-, -, -, -⟩, hstrict⟩ := hab
      obtain ⟨-, ⟨b1, b2, b3, b4⟩, -⟩ := hba
      rcases hstrict with h | h | h | h | h
      · omega
      · exact absurd h (not_lt.mpr b1)
      · exact absurd h (not_lt.mpr b2)
      · exact absurd h (not_lt.mpr b3)
      · exact absurd h (not_lt.mpr b4)

/-- C4: `get_normalized_vector()` is exactly
`[arrival_time/90, transfers/3, max_transfer_difficulty,
mean_convenience/5, mean_congestion/1.3]` where the means are
`convenience_sum/depth` and `congestion_sum/depth`. -/
theorem get_normalized_vector_spec (l : Label) :
    l.get_normalized_vector =
      [l.arrival_time / 90,
       (l.transfers : ℚ) / 3,
       l.max_transfer_difficulty,
       (l.convenience_sum / (l.depth : ℚ)) / 5,
       (l.congestion_sum / (l.depth : ℚ)) / (13/10)] := rfl

/-- C5: `calculate_weighted_score(w)` is the weighted sum of the five
normalized criteria `min(arrival_time/120, 1)`, `min(transfers/4, 1)`,
`max_transfer_difficulty`, `1 - mean_convenience/5`, and
`min(mean_congestion, 1)`, each weight looked up under its criterion key
with default 0.2 (= 2/10) when absent. -/
theorem calculate_weighted_score_spec (l : Label) (w : Weights) :
    l.calculate_weighted_score w =
      (w "travel_time").getD (2/10) * min (l.arrival_time / 120) 1
      + (w "transfers").getD (2/10) * min ((l.transfers : ℚ) / 4) 1
      + (w "transfer_difficulty").getD (2/10) * l.max_transfer_difficulty
      + (w "convenience").getD (2/10) * (1 - (l.convenience_sum / (l.depth : ℚ)) / 5)
      + (w "congestion").getD (2/10) * min (l.congestion_sum / (l.depth : ℚ)) 1 := rfl

/-- C7: `__eq__` holds exactly on agreement of the bucket key
`(current_station_cd, current_line, transfers)` regardless of any other
attribute, and `__hash__` depends only on that triple, so labels equal
under `__eq__` always hash alike (for any tuple hash `h`). -/
theorem eqPy_bucket_key_and_hash (a b : Label) (h : String × String × ℤ → ℤ) :
    (a.eqPy b = true ↔
      a.current_station_cd = b.current_station_cd ∧ a.current_line = b.current_line ∧
        a.transfers = b.transfers)
    ∧ (a.eqPy b = true → a.hashPy h = b.hashPy h) := by
  have hiff : a.eqPy b = true ↔
      a.current_station_cd = b.current_station_cd ∧ a.current_line = b.current_line ∧
        a.transfers = b.transfers := by
    simp [Label.eqPy, Bool.and_eq_true, beq_iff_eq, and_assoc]
  refine ⟨hiff, fun he => ?_⟩
  obtain ⟨h1, h2, h3⟩ := hiff.mp he
  simp [Label.hashPy, Label.hashKey, h1, h2, h3]

/-- C7 witness: two concrete labels differing in arrival, sums,
difficulty, direction, visited set, transfer info, flags and round but
sharing the bucket key are `__eq__`-equal and hash alike. -/
theorem eqPy_bucket_key_and_hash_witness :
    labelW1.eqPy labelW2 = true ∧
      labelW1.hashPy tupleHashSample = labelW2.hashPy tupleHashSample :=
  ⟨by decide, (eqPy_bucket_key_and_hash labelW1 labelW2 tupleHashSample).2 (by decide)⟩

/-- C9: the legacy `Label.calculate_weighted_score` of `label.py` reads
the undeclared attributes `convenience_score` and `congestion_score`,
so for every legacy label and every weight map the call raises
`AttributeError` (modelled as `none`) instead of returning a score. -/
theorem legacy_calculate_weighted_score_always_fails
    (l : LegacyLabel) (w : Weights) :
    l.calculate_weighted_score w = none := by
  have hc : l.getattr "convenience_score" = none := by
    unfold LegacyLabel.getattr
    repeat rw [if_neg (by decide)]
  simp [LegacyLabel.calculate_weighted_score, hc]

/-- C6: `epsilon_similar` holds exactly when the weighted Euclidean
distance over the two normalized cost vectors — the square root of the
sum over the five criteria of the profile weight (default 0.2) times the
squared component difference — is at most `epsilon`. -/
theorem epsilon_similar_iff_distance_le (a b : Label) (ε : ℚ) (w : Weights) :
    a.epsilon_similar b ε w ↔
      Real.sqrt (((
        (w "travel_time").getD (2/10) * (a.arrival_time / 90 - b.arrival_time / 90)^2
        + (w "transfers").getD (2/10) * ((a.transfers : ℚ) / 3 - (b.transfers : ℚ) / 3)^2
        + (w "transfer_difficulty").getD (2/10)
          * (a.max_transfer_difficulty - b.max_transfer_difficulty)^2
        + (w "convenience").getD (2/10) * (a.avg_convenience / 5 - b.avg_convenience / 5)^2
        + (w "congestion").getD (2/10)
          * (a.avg_congestion / (13/10) - b.avg_congestion / (13/10))^2 : ℚ)) : ℝ)
      ≤ (ε : ℝ) := by
  unfold Label.epsilon_similar Label.weighted_distance
  rw [Label.weighted_diff_sq_eq]

/-- C8: `reconstruct_lines` always returns a list of the same length as
`reconstruct_route` on the same helper-map arguments, so each emitted
station has exactly one associated line label. -/
theorem reconstruct_lines_route_same_length (l : Label)
    (line_stations : Option LineStationsMap)
    (station_order_map : Option StationOrderMap) :
    (l.reconstruct_lines line_stations station_order_map).length
      = (l.reconstruct_route line_stations station_order_map).length := by
  cases line_stations with
  | none =>
    simp [Label.reconstruct_lines, Label.reconstruct_route, Label.pathFromRoot]
  | some ls =>
    cases station_order_map with
    | none =>
      simp [Label.reconstruct_lines, Label.reconstruct_route, Label.pathFromRoot]
    | some som =>
      cases hp : l.pathFromRoot with
      | nil => simp [Label.reconstruct_lines, Label.reconstruct_route, hp]
      | cons first rest =>
        simp [Label.reconstruct_lines, Label.reconstruct_route, hp, steps_length_eq]

/-- C10: when an endpoint's order index is missing from
`station_order_map`, or no station of the line lies in the computed
`(min, max]` order range, `_get_intermediate_stations` returns exactly
the one-element list `[to_station_cd]` — silently degrading instead of
raising or terminating reconstruction. -/
theorem get_intermediate_stations_degrades (from_cd to_cd line dir : String)
    (ls : LineStationsMap) (som : StationOrderMap)
    (h : orderGet som (from_cd, line) = none ∨ orderGet som (to_cd, line) = none
      ∨ ∃ fo t_o, orderGet som (from_cd, line) = some fo ∧
          orderGet som (to_cd, line) = some t_o ∧
          ∀ p ∈ som, ¬(p.1.2 = line ∧ min fo t_o < p.2 ∧ p.2 ≤ max fo t_o)) :
    _get_intermediate_stations from_cd to_cd line dir ls som = [to_cd] := by
  rcases h with h | h | ⟨fo, t_o, hf, ht, hall⟩
  · cases h2 : orderGet som (to_cd, line) <;>
      simp [_get_intermediate_stations, h, h2]
  · cases h2 : orderGet som (from_cd, line) <;>
      simp [_get_intermediate_stations, h, h2]
  · have hfm : som.filterMap (fun p =>
        if p.1.2 = line ∧ (fo < p.2 ∨ t_o < p.2) ∧ (p.2 ≤ fo ∨ p.2 ≤ t_o)
        then some (p.2, p.1.1) else none) = [] := by
      rw [List.filterMap_eq_nil_iff]
      intro p hp
      rw [if_neg]
      rintro ⟨hl, hlt, hle⟩
      exact hall p hp ⟨hl, min_lt_iff.mpr hlt, le_max_iff.mpr hle⟩
    simp [_get_intermediate_stations, hf, ht, hfm, sortByOrder]

/-- C10 witness: station `X` absent from the order map degrades to the
one-element destination list. -/
theorem get_intermediate_stations_degrades_witness :
    orderGet somW ("X", "L") = none ∧
      _get_intermediate_stations "X" "A" "L" "up" [] somW = ["A"] :=
  ⟨by decide,
    get_intermediate_stations_degrades "X" "A" "L" "up" [] somW (.inl (by decide))⟩

/-- C2 evidence: a descending same-line hop from `B` (order 1) to `A`
(order 0) makes `_get_intermediate_stations` return `["B"]` — the
starting station — instead of the claimed sweep `["A"]` that includes
the destination end and excludes the starting end. -/
theorem get_intermediate_stations_descending_bug :
    _get_intermediate_stations "B" "A" "L" "down" [] somW = ["B"] ∧
      _get_intermediate_stations "B" "A" "L" "down" [] somW ≠ ["A"] := by decide

end Transit
